import Mathlib

/-!
Verification development for the Ringsel Holowars server game engine
(server.js embedded in the repository). The server keeps an in-memory world
of hexagonal tiles, a map of players keyed by opaque session tokens, a
token-to-socket binding, and an ip-to-token origin lock. Socket handlers
(join, resume, deploy, move, attack, recruit_collect) validate and apply
actions; a 1000 ms interval advances recruitment production; a snapshot
routine persists and restores the whole state.

Modelling conventions, matching the source:
* tile ids are the axial pair (q, r); the source keys tiles by the string
  "q,r", which is in bijection with the pair;
* troop counts, control values and inventory are natural numbers: the wire
  amount is floored and every handler drops requests with amount < 1, so a
  negative wire amount behaves exactly like the (representable) amount 0;
* the fractional production accumulator producedPrecise is modelled over
  the rationals, with produced its integer floor, matching Math.floor;
* Math.max(0, n - 1000) on the countdown is truncated subtraction on Nat;
* maps (tiles by id, players by token, troops by tile id, ip lock, socket
  binding) are association lists observed through a first-match lookup,
  exactly the observable behaviour of a JS Map or object;
* the rate limiter verdict is passed to mutating handlers as a boolean
  (its token-bucket state is not part of the game state the claims are
  about); a false verdict reproduces the silent drop in the source.
-/

set_option maxHeartbeats 1000000
set_option maxRecDepth 100000

namespace Holowars

/-- Axial hex coordinate (q, r); identity key of a tile. -/
abbrev TileId := ℤ × ℤ

/-- The six axial neighbor offsets, in source order (DIRS). -/
def DIRS : List (ℤ × ℤ) := [(1, 0), (-1, 0), (0, 1), (0, -1), (1, -1), (-1, 1)]

/-- neighborsOf(q, r) from the source. -/
def neighborsOf (a : TileId) : List TileId :=
  DIRS.map (fun d => (a.1 + d.1, a.2 + d.2))

/-- The adjacency test the handlers use:
neighborsOf(from.q, from.r).some(([q, r]) => key(q, r) === targetId). -/
def isNeighbor (a b : TileId) : Bool :=
  (neighborsOf a).any (fun n => n = b)

structure Faction where
  id : String
  name : String
  color : String
deriving DecidableEq

structure Tile where
  id : TileId
  ownerFaction : String
  control : ℕ
  isCapital : Bool
  publicTroops : ℕ
deriving DecidableEq

structure Player where
  token : String
  name : String
  factionId : String
  troops : List (TileId × ℕ)
  producedPrecise : ℚ
  produced : ℤ
  inventory : ℕ
  remainingMs : ℕ
  recruitDurationMs : ℕ
  reserveCap : ℕ
deriving DecidableEq

structure GameState where
  tiles : List Tile
  factions : List Faction
  capitalsByFaction : List (String × TileId)
  players : List Player
  tokenToSocket : List (String × ℕ)
  ipToToken : List (String × String)
deriving DecidableEq

/-- The configuration surface used by the modelled handlers:
START_TROOPS, RECRUIT_DURATION_MS, RESERVE_CAP, DISABLE_IP_LOCK. -/
structure Config where
  startTroops : ℕ
  recruitDurationMs : ℕ
  reserveCap : ℕ
  disableIpLock : Bool

/-- The source defaults: START_TROOPS 100, RECRUIT_DURATION_MS 5*60*1000,
RESERVE_CAP 1000, ip lock enabled. -/
def defaultCfg : Config :=
  { startTroops := 100, recruitDurationMs := 300000, reserveCap := 1000,
    disableIpLock := false }

/-- First-match association lookup (the observable behaviour of Map.get). -/
def alookup {α β : Type} [DecidableEq α] (l : List (α × β)) (k : α) : Option β :=
  (l.find? (fun e => e.1 = k)).map (fun e => e.2)

/-- Map.set: insert or replace a binding. -/
def setAssoc {α β : Type} [DecidableEq α] (l : List (α × β)) (k : α) (v : β) :
    List (α × β) :=
  (k, v) :: l.filter (fun e => ¬ e.1 = k)

/-- Map.has. -/
def hasKey {α β : Type} [DecidableEq α] (l : List (α × β)) (k : α) : Bool :=
  l.any (fun e => e.1 = k)

/-- tiles.get(tid). -/
def lookupTile (ts : List Tile) (tid : TileId) : Option Tile :=
  ts.find? (fun t => t.id = tid)

/-- In-place mutation of the tile with the given id. -/
def updTile (ts : List Tile) (tid : TileId) (f : Tile → Tile) : List Tile :=
  ts.map (fun t => if t.id = tid then f t else t)

/-- players.get(token). -/
def findPlayer (s : GameState) (token : String) : Option Player :=
  s.players.find? (fun p => p.token = token)

/-- In-place mutation of the player bound to the given token. -/
def updPlayer (s : GameState) (token : String) (f : Player → Player) : GameState :=
  { s with players := s.players.map (fun p => if p.token = token then f p else p) }

/-- p.troops[tid] || 0 : an absent entry counts as zero. -/
def getTroops (p : Player) (tid : TileId) : ℕ :=
  (alookup p.troops tid).getD 0

/-- p.troops[tid] = v (insert or replace the entry). -/
def setTroops (tr : List (TileId × ℕ)) (tid : TileId) (v : ℕ) : List (TileId × ℕ) :=
  setAssoc tr tid v

/-- delete p.troops[tid]. -/
def delTroops (tr : List (TileId × ℕ)) (tid : TileId) : List (TileId × ℕ) :=
  tr.filter (fun e => ¬ e.1 = tid)

/-- p.troops[tid] -= amount; if (p.troops[tid] <= 0) delete p.troops[tid].
Over ℕ, after the callers have checked amount <= the stored value, the
condition v <= 0 is v = 0. -/
def debitTroops (tr : List (TileId × ℕ)) (tid : TileId) (amount : ℕ) :
    List (TileId × ℕ) :=
  let v := ((alookup tr tid).getD 0) - amount
  if v = 0 then delTroops tr tid else setTroops tr tid v

/-- Sum over all players of the troops stationed on a tile. -/
def sumTroopsAt (ps : List Player) (tid : TileId) : ℕ :=
  (ps.map (fun p => getTroops p tid)).sum

/-- recalcPublicTroops(tileId): recompute a tile's publicTroops as the sum of
every player's troop entry for that tile (a no-op if the tile is absent). -/
def recalcPublicTroops (s : GameState) (tid : TileId) : GameState :=
  { s with tiles := (updTile s.tiles tid
      (fun t => { t with publicTroops := sumTroopsAt s.players tid })) }

/-- recalcAllPublicTroops(): recompute every tile. -/
def recalcAllPublicTroops (s : GameState) : GameState :=
  { s with tiles := (s.tiles.map
      (fun t => { t with publicTroops := sumTroopsAt s.players t.id })) }

/-- while (q.length && out.length < limit): Infinity is the none limit. -/
def underLimit : Option ℕ → ℕ → Bool
  | none, _ => true
  | some l, n => n < l

/-- One neighbor-expansion step of bfsRegion: push every existing, unseen,
passable neighbor, in DIRS order (seen list, queue tail). -/
def bfsPush (tiles : List Tile) (passable : Tile → Bool) (t : Tile)
    (acc : List TileId × List TileId) : List TileId × List TileId :=
  DIRS.foldl (fun acc d =>
    let nid : TileId := (t.id.1 + d.1, t.id.2 + d.2)
    match lookupTile tiles nid with
    | none => acc
    | some nt =>
        if ¬ acc.1.contains nid ∧ passable nt then (nid :: acc.1, acc.2 ++ [nid])
        else acc) acc

/-- The bfsRegion worklist loop. The fuel bounds the number of dequeues; every
enqueued id is a distinct, newly seen tile id (plus the start), so
tiles.length + 1 dequeues always drain the queue, exactly as the unbounded
source loop does. The none branch for a dequeued id absent from the tile map
cannot be reached when the start id is a tile (the source would fault there).
-/
def bfsLoop (tiles : List Tile) (passable : Tile → Bool) (limit : Option ℕ) :
    ℕ → List TileId → List TileId → List TileId → List TileId
  | 0, _, _, out => out
  | fuel + 1, q, seen, out =>
    match q with
    | [] => out
    | id :: rest =>
      if underLimit limit out.length then
        match lookupTile tiles id with
        | none => bfsLoop tiles passable limit fuel rest seen (out ++ [id])
        | some t =>
            let sq := bfsPush tiles passable t (seen, rest)
            bfsLoop tiles passable limit fuel sq.2 sq.1 (out ++ [id])
      else out

/-- bfsRegion(startId, tiles, passableFn, limit) from the source. -/
def bfsRegion (startId : TileId) (tiles : List Tile) (passable : Tile → Bool)
    (limit : Option ℕ) : List TileId :=
  bfsLoop tiles passable limit (tiles.length + 1) [startId] [startId] []

/-- The outbound events a handler emits, in emission order. -/
inductive Ev
  | worldFull
  | playersRoster
  | joinedOk (token : String)
  | meUpdate (token : String)
  | tileUpdate (tid : TileId)
  | combatResult (fromId targetId : TileId) (survivors : ℕ)
  | errorMsg (message : String)
  | sessionError (message : String)
deriving DecidableEq

/-- Whether an event list contains a combat_result. -/
def hasCombat (evs : List Ev) : Bool :=
  evs.any (fun e => match e with
    | Ev.combatResult _ _ _ => true
    | _ => false)

/-- The io.on("connection") admission gate: with the ip lock enabled, a
connection from an ip already bound to a token that has a live socket is
refused with a session_error (and the socket is disconnected, so none of its
messages are processed); otherwise the connection is admitted and receives
the world payload and the online roster. Returns the admission verdict. -/
def handleConnection (cfg : Config) (s : GameState) (ip : String) :
    Bool × List Ev :=
  if ¬ cfg.disableIpLock then
    match alookup s.ipToToken ip with
    | some tok =>
        if hasKey s.tokenToSocket tok then
          (false, [Ev.sessionError "Only one active session per IP is allowed."])
        else (true, [Ev.worldFull, Ev.playersRoster])
    | none => (true, [Ev.worldFull, Ev.playersRoster])
  else (true, [Ev.worldFull, Ev.playersRoster])

/-- socket.on("join"): validates the payload, mints a player with the
starting garrison at the faction capital, recomputes that tile's
publicTroops, then registers the player and its bindings. freshToken stands
for the crypto.randomBytes token; sockId for socket.id. Note the source
order: recalcPublicTroops(capId) and the tile_update run before
players.set(token, p). -/
def handleJoin (cfg : Config) (s : GameState) (sockId : ℕ) (ip : String)
    (freshToken name factionId : String) : GameState × List Ev :=
  if name = "" ∨ factionId = "" ∨ (s.factions.find? (fun f => f.id = factionId)).isNone then
    (s, [Ev.errorMsg "Invalid join payload."])
  else
    let p : Player :=
      { token := freshToken, name := name.take 24, factionId := factionId,
        troops := [], producedPrecise := 0, produced := 0, inventory := 0,
        remainingMs := cfg.recruitDurationMs,
        recruitDurationMs := cfg.recruitDurationMs,
        reserveCap := cfg.reserveCap }
    match alookup s.capitalsByFaction factionId with
    | some capId =>
        let p1 := { p with troops := setTroops p.troops capId (getTroops p capId + cfg.startTroops) }
        let s1 := recalcPublicTroops s capId
        let s2 := { s1 with
                    players := s1.players ++ [p1],
                    tokenToSocket := setAssoc s1.tokenToSocket freshToken sockId,
                    ipToToken := (if cfg.disableIpLock then s1.ipToToken
                                  else setAssoc s1.ipToToken ip freshToken) }
        (s2, [Ev.tileUpdate capId, Ev.joinedOk freshToken, Ev.playersRoster])
    | none =>
        let s2 := { s with
                    players := s.players ++ [p],
                    tokenToSocket := setAssoc s.tokenToSocket freshToken sockId,
                    ipToToken := (if cfg.disableIpLock then s.ipToToken
                                  else setAssoc s.ipToToken ip freshToken) }
        (s2, [Ev.joinedOk freshToken, Ev.playersRoster])

/-- socket.on("recruit_collect"): move the integer produced into the
inventory, deduct it from the accumulator without going negative, reset the
countdown; a silent no-op when produced is not positive. -/
def handleCollect (cfg : Config) (s : GameState) (token : String) (limOk : Bool) :
    GameState × List Ev :=
  match findPlayer s token with
  | none => (s, [])
  | some p =>
    if limOk = false then (s, [])
    else if 0 < p.produced then
      (updPlayer s token (fun q =>
        { q with inventory := q.inventory + q.produced.toNat,
                 producedPrecise := max 0 (q.producedPrecise - (q.produced : ℚ)),
                 produced := 0,
                 remainingMs := cfg.recruitDurationMs }),
       [Ev.meUpdate token])
    else (s, [])

/-- socket.on("deploy"): silent drop when the tile is missing, the amount is
not positive, or the inventory is insufficient; explicit error when the
target is not in the capital-connected faction region; otherwise debit the
inventory, credit the troop entry, recompute publicTroops, and emit. The
missing-capital branch cannot occur for a generated world (the source would
fault inside bfsRegion there). -/
def handleDeploy (_cfg : Config) (s : GameState) (token : String)
    (targetId : TileId) (amount : ℕ) (limOk : Bool) : GameState × List Ev :=
  match findPlayer s token with
  | none => (s, [])
  | some p =>
    if limOk = false then (s, [])
    else
      match lookupTile s.tiles targetId with
      | none => (s, [])
      | some _ =>
        if amount < 1 ∨ p.inventory < amount then (s, [])
        else
          match alookup s.capitalsByFaction p.factionId with
          | none => (s, [])
          | some capId =>
            let eligible := bfsRegion capId s.tiles
              (fun tile => tile.ownerFaction = p.factionId) none
            if eligible.contains targetId then
              let s1 := updPlayer s token (fun q =>
                { q with inventory := q.inventory - amount,
                         troops := setTroops q.troops targetId
                           (getTroops q targetId + amount) })
              (recalcPublicTroops s1 targetId,
               [Ev.meUpdate token, Ev.tileUpdate targetId])
            else (s, [Ev.errorMsg "Target not connected to your capital."])

/-- socket.on("move"): every invalid input is silently dropped; a valid
single hop debits the origin entry (removing it at zero), credits the
destination entry, recomputes both tiles and emits. -/
def handleMove (s : GameState) (token : String) (fromId toId : TileId)
    (amount : ℕ) (limOk : Bool) : GameState × List Ev :=
  match findPlayer s token with
  | none => (s, [])
  | some p =>
    if limOk = false then (s, [])
    else
      match lookupTile s.tiles fromId, lookupTile s.tiles toId with
      | some fr, some toT =>
        if amount < 1 then (s, [])
        else if ¬ isNeighbor fromId toId then (s, [])
        else if ¬ (fr.ownerFaction = p.factionId ∧ toT.ownerFaction = p.factionId) then (s, [])
        else if getTroops p fromId < amount then (s, [])
        else
          let s1 := updPlayer s token (fun q =>
            let tr1 := debitTroops q.troops fromId amount
            { q with troops := setTroops tr1 toId ((alookup tr1 toId).getD 0 + amount) })
          let s2 := recalcPublicTroops (recalcPublicTroops s1 fromId) toId
          (s2, [Ev.meUpdate token, Ev.tileUpdate fromId, Ev.tileUpdate toId])
      | _, _ => (s, [])

/-- socket.on("attack"): validation order as in the source (existence and
amount, ownership of the origin, troop sufficiency, adjacency, capital
immunity), then resolution against defenders = target.control: a strict
majority captures (full debit, survivors credited on the target, owner
flips, control resets to 0, combat_result emitted), otherwise the attackers
are lost and control is worn down by the amount, with no combat_result. -/
def handleAttack (s : GameState) (token : String) (fromId targetId : TileId)
    (amount : ℕ) (limOk : Bool) : GameState × List Ev :=
  match findPlayer s token with
  | none => (s, [])
  | some p =>
    if limOk = false then (s, [])
    else
      match lookupTile s.tiles fromId, lookupTile s.tiles targetId with
      | some fr, some tg =>
        if amount < 1 then (s, [])
        else if ¬ fr.ownerFaction = p.factionId then (s, [])
        else if getTroops p fromId < amount then (s, [])
        else if ¬ isNeighbor fromId targetId then (s, [])
        else if tg.isCapital then (s, [Ev.errorMsg "Capitals cannot be conquered."])
        else
          let defenders := tg.control
          if defenders < amount then
            let survivors := amount - defenders
            let s1 := updPlayer s token (fun q =>
              let tr1 := debitTroops q.troops fromId amount
              { q with troops := (setTroops tr1 targetId
                  ((alookup tr1 targetId).getD 0 + survivors)) })
            let s2 := { s1 with tiles := (updTile s1.tiles targetId
              (fun t => { t with ownerFaction := p.factionId, control := 0 })) }
            let s3 := recalcPublicTroops (recalcPublicTroops s2 fromId) targetId
            (s3, [Ev.meUpdate token, Ev.combatResult fromId targetId survivors,
                  Ev.tileUpdate fromId, Ev.tileUpdate targetId])
          else
            let s1 := updPlayer s token (fun q =>
              { q with troops := debitTroops q.troops fromId amount })
            let s2 := { s1 with tiles := (updTile s1.tiles targetId
              (fun t => { t with control := defenders - amount })) }
            let s3 := recalcPublicTroops s2 fromId
            (s3, [Ev.meUpdate token, Ev.tileUpdate fromId, Ev.tileUpdate targetId])
      | _, _ => (s, [])

/-- One recruitment-tick update of a single player (the body of the 1000 ms
setInterval): perSec = reserveCap / (recruitDurationMs / 1000); while the
countdown runs, decrement it by 1000 floored at 0 (truncated ℕ subtraction)
and add perSec to the accumulator capped at reserveCap; at 0 the accumulator
is pinned at its capped value; produced is always the floor. -/
def tickPlayer (p : Player) : Player :=
  let perSec : ℚ := (p.reserveCap : ℚ) / ((p.recruitDurationMs : ℚ) / 1000)
  if 0 < p.remainingMs then
    let pp := min (p.reserveCap : ℚ) (p.producedPrecise + perSec)
    { p with remainingMs := p.remainingMs - 1000, producedPrecise := pp,
             produced := ⌊pp⌋ }
  else
    let pp := min (p.reserveCap : ℚ) p.producedPrecise
    { p with producedPrecise := pp, produced := ⌊pp⌋ }

/-- The recruitment tick iterates every known player, connected or not (the
socket binding is consulted only for the optional me_update emission). -/
def recruitTick (s : GameState) : GameState :=
  { s with players := s.players.map tickPlayer }

/-- The serialized form of a tile; publicTroops is optional because older
snapshots may predate the field. -/
structure SnapTile where
  id : TileId
  ownerFaction : String
  control : ℕ
  isCapital : Bool
  publicTroops : Option ℕ
deriving DecidableEq

/-- The persisted file layout: world tiles, factions, capital lookup, full
player records, and the origin lock map. -/
structure Snapshot where
  tiles : List SnapTile
  factions : List Faction
  capitalsByFaction : List (String × TileId)
  players : List Player
  ipToToken : List (String × String)
deriving DecidableEq

/-- snapshot(): serialize the full state (players are written with exactly
their record fields; the ip map is written empty when the lock is off). -/
def snapshotOf (cfg : Config) (s : GameState) : Snapshot :=
  { tiles := s.tiles.map (fun t =>
      { id := t.id, ownerFaction := t.ownerFaction, control := t.control,
        isCapital := t.isCapital, publicTroops := some t.publicTroops }),
    factions := s.factions,
    capitalsByFaction := s.capitalsByFaction,
    players := s.players,
    ipToToken := if cfg.disableIpLock then [] else s.ipToToken }

/-- loadSnapshot(): replace tiles (defaulting a missing publicTroops to 0),
factions, capitals and players wholesale, restore the ip lock map when
enabled, then recompute every tile's publicTroops from the restored
players. The socket binding is untouched. -/
def loadSnapshot (cfg : Config) (data : Snapshot) (s : GameState) : GameState :=
  let s1 : GameState :=
    { tiles := data.tiles.map (fun t =>
        { id := t.id, ownerFaction := t.ownerFaction, control := t.control,
          isCapital := t.isCapital, publicTroops := t.publicTroops.getD 0 }),
      factions := data.factions,
      capitalsByFaction := data.capitalsByFaction,
      players := data.players,
      tokenToSocket := s.tokenToSocket,
      ipToToken := if cfg.disableIpLock then s.ipToToken else data.ipToToken }
  recalcAllPublicTroops s1

/-- Drop the publicTroops field from every serialized tile, producing the
shape of a snapshot written by the schema version that predated the field. -/
def stripPublicTroops (data : Snapshot) : Snapshot :=
  { data with tiles := data.tiles.map (fun t => { t with publicTroops := none }) }

/-- A mutating client action, after session resolution; the boolean is the
rate-limiter verdict. -/
inductive Action
  | join (sockId : ℕ) (ip freshToken name factionId : String)
  | deploy (token : String) (targetId : TileId) (amount : ℕ) (limOk : Bool)
  | move (token : String) (fromId toId : TileId) (amount : ℕ) (limOk : Bool)
  | attack (token : String) (fromId targetId : TileId) (amount : ℕ) (limOk : Bool)
  | collect (token : String) (limOk : Bool)

/-- Dispatch an action to its handler. -/
def applyAction (cfg : Config) (a : Action) (s : GameState) : GameState × List Ev :=
  match a with
  | Action.join sockId ip tok nm fid => handleJoin cfg s sockId ip tok nm fid
  | Action.deploy tok tid amt l => handleDeploy cfg s tok tid amt l
  | Action.move tok f t amt l => handleMove s tok f t amt l
  | Action.attack tok f t amt l => handleAttack s tok f t amt l
  | Action.collect tok l => handleCollect cfg s tok l

/-- An attack request, for reasoning about attack sequences. -/
structure AttackReq where
  token : String
  fromId : TileId
  targetId : TileId
  amount : ℕ
  limOk : Bool

/-- Fold a sequence of attack requests over the state. -/
def applyAttacks (reqs : List AttackReq) (s : GameState) : GameState :=
  reqs.foldl (fun st r => (handleAttack st r.token r.fromId r.targetId r.amount r.limOk).1) s

/-- The publicTroops coherence invariant: every tile's cached publicTroops
is the sum of all player troop entries for that tile. -/
def pubOK (s : GameState) : Prop :=
  ∀ t ∈ s.tiles, t.publicTroops = sumTroopsAt s.players t.id

instance (s : GameState) : Decidable (pubOK s) := by
  unfold pubOK; infer_instance

/-- The troop-map positivity invariant: no stored entry is zero. -/
def troopsPos (s : GameState) : Prop :=
  ∀ p ∈ s.players, ∀ e ∈ p.troops, 0 < e.2

instance (s : GameState) : Decidable (troopsPos s) := by
  unfold troopsPos; infer_instance

/-- The pre-capital validation conjunction of the attack handler: resolved
player, live limiter verdict, both tiles present, positive amount, origin
owned by the attacker faction with enough troops, and adjacency. -/
def attackPreChecks (s : GameState) (token : String) (fromId targetId : TileId)
    (amount : ℕ) (limOk : Bool) : Bool :=
  match findPlayer s token, lookupTile s.tiles fromId, lookupTile s.tiles targetId with
  | some p, some fr, some _ =>
      limOk && !(amount < 1 : Bool) && (fr.ownerFaction = p.factionId)
        && !(getTroops p fromId < amount : Bool) && isNeighbor fromId targetId
  | _, _, _ => false

/-! Association-list observation lemmas. -/

theorem find_filter_of_imp {α : Type} (l : List α) (p q : α → Bool)
    (hpq : ∀ x, p x = true → q x = true) :
    List.find? p (l.filter q) = List.find? p l := by
  induction l with
  | nil => rfl
  | cons x rest ih =>
    by_cases hq : q x = true
    · rw [List.filter_cons_of_pos hq]
      by_cases hp : p x = true
      · rw [List.find?_cons_of_pos _ hp, List.find?_cons_of_pos _ hp]
      · rw [List.find?_cons_of_neg _ hp, List.find?_cons_of_neg _ hp, ih]
    · rw [List.filter_cons_of_neg hq]
      have hp : ¬ p x = true := fun hpx => hq (hpq x hpx)
      rw [List.find?_cons_of_neg _ hp, ih]

theorem alookup_filter_self {α β : Type} [DecidableEq α] (l : List (α × β)) (k : α) :
    alookup (l.filter (fun e => ¬ e.1 = k)) k = none := by
  unfold alookup
  rw [List.find?_eq_none.mpr]
  · rfl
  · intro e he
    have := (List.mem_filter.mp he).2
    simpa using this

theorem alookup_filter_ne {α β : Type} [DecidableEq α] (l : List (α × β)) (k k' : α)
    (h : ¬ k' = k) :
    alookup (l.filter (fun e => ¬ e.1 = k)) k' = alookup l k' := by
  unfold alookup
  rw [find_filter_of_imp]
  intro x hx
  simp only [decide_eq_true_eq] at hx
  simp only [decide_eq_true_eq]
  rw [hx]
  exact h

theorem alookup_setAssoc_self {α β : Type} [DecidableEq α] (l : List (α × β)) (k : α) (v : β) :
    alookup (setAssoc l k v) k = some v := by
  unfold alookup setAssoc
  rw [List.find?_cons_of_pos _ (by simp)]
  rfl

theorem alookup_setAssoc_ne {α β : Type} [DecidableEq α] (l : List (α × β)) (k k' : α) (v : β)
    (h : ¬ k' = k) :
    alookup (setAssoc l k v) k' = alookup l k' := by
  unfold setAssoc
  have hh : alookup ((k, v) :: l.filter (fun e => ¬ e.1 = k)) k'
      = alookup (l.filter (fun e => ¬ e.1 = k)) k' := by
    unfold alookup
    rw [List.find?_cons_of_neg _ (by simpa using fun hk : k = k' => h hk.symm)]
  rw [hh, alookup_filter_ne l k k' h]

theorem getD_alookup_debit_self (tr : List (TileId × ℕ)) (tid : TileId) (a : ℕ) :
    (alookup (debitTroops tr tid a) tid).getD 0 = (alookup tr tid).getD 0 - a := by
  show (alookup (if (alookup tr tid).getD 0 - a = 0 then delTroops tr tid
      else setTroops tr tid ((alookup tr tid).getD 0 - a)) tid).getD 0
      = (alookup tr tid).getD 0 - a
  by_cases h : (alookup tr tid).getD 0 - a = 0
  · rw [if_pos h]
    unfold delTroops
    rw [alookup_filter_self]
    simpa using h.symm
  · rw [if_neg h]
    unfold setTroops
    rw [alookup_setAssoc_self]
    rfl

theorem alookup_debit_ne (tr : List (TileId × ℕ)) (tid tid' : TileId) (a : ℕ)
    (h : ¬ tid' = tid) :
    alookup (debitTroops tr tid a) tid' = alookup tr tid' := by
  show alookup (if (alookup tr tid).getD 0 - a = 0 then delTroops tr tid
      else setTroops tr tid ((alookup tr tid).getD 0 - a)) tid' = alookup tr tid'
  by_cases h1 : (alookup tr tid).getD 0 - a = 0
  · rw [if_pos h1]
    unfold delTroops
    exact alookup_filter_ne tr tid tid' h
  · rw [if_neg h1]
    unfold setTroops
    exact alookup_setAssoc_ne tr tid tid' _ h

/-! Keyed-map update lemmas for the player list and the tile list. -/

theorem findPlayer_updPlayer_self (s : GameState) (token : String) (f : Player → Player)
    (hf : ∀ q, (f q).token = q.token) :
    findPlayer (updPlayer s token f) token = (findPlayer s token).map f := by
  unfold findPlayer updPlayer
  simp only
  induction s.players with
  | nil => rfl
  | cons q rest ih =>
    rw [List.map_cons]
    by_cases h : q.token = token
    · rw [if_pos h]
      rw [List.find?_cons_of_pos _ (by simpa using (hf q).trans h),
          List.find?_cons_of_pos _ (by simpa using h)]
      rfl
    · rw [if_neg h]
      rw [List.find?_cons_of_neg _ (by simpa using h),
          List.find?_cons_of_neg _ (by simpa using h), ih]

theorem findPlayer_updPlayer_ne (s : GameState) (token tok' : String) (f : Player → Player)
    (hf : ∀ q, (f q).token = q.token) (h : ¬ tok' = token) :
    findPlayer (updPlayer s token f) tok' = findPlayer s tok' := by
  unfold findPlayer updPlayer
  simp only
  induction s.players with
  | nil => rfl
  | cons q rest ih =>
    rw [List.map_cons]
    by_cases h1 : q.token = token
    · have h2 : ¬ q.token = tok' := fun hk => h (hk.symm.trans h1)
      have h3 : ¬ (f q).token = tok' := by
        rw [hf]
        exact h2
      rw [if_pos h1]
      rw [List.find?_cons_of_neg _ (by simpa using h3),
          List.find?_cons_of_neg _ (by simpa using h2), ih]
    · rw [if_neg h1]
      by_cases h2 : q.token = tok'
      · rw [List.find?_cons_of_pos _ (by simpa using h2),
            List.find?_cons_of_pos _ (by simpa using h2)]
      · rw [List.find?_cons_of_neg _ (by simpa using h2),
            List.find?_cons_of_neg _ (by simpa using h2), ih]

theorem lookupTile_updTile_self (ts : List Tile) (tid : TileId) (f : Tile → Tile)
    (hf : ∀ t, (f t).id = t.id) :
    lookupTile (updTile ts tid f) tid = (lookupTile ts tid).map f := by
  unfold lookupTile updTile
  induction ts with
  | nil => rfl
  | cons t rest ih =>
    rw [List.map_cons]
    by_cases h : t.id = tid
    · rw [if_pos h]
      rw [List.find?_cons_of_pos _ (by simpa using (hf t).trans h),
          List.find?_cons_of_pos _ (by simpa using h)]
      rfl
    · rw [if_neg h]
      rw [List.find?_cons_of_neg _ (by simpa using h),
          List.find?_cons_of_neg _ (by simpa using h), ih]

theorem lookupTile_updTile_ne (ts : List Tile) (tid tid' : TileId) (f : Tile → Tile)
    (hf : ∀ t, (f t).id = t.id) (h : ¬ tid' = tid) :
    lookupTile (updTile ts tid f) tid' = lookupTile ts tid' := by
  unfold lookupTile updTile
  induction ts with
  | nil => rfl
  | cons t rest ih =>
    rw [List.map_cons]
    by_cases h1 : t.id = tid
    · have h2 : ¬ t.id = tid' := fun hk => h (hk.symm.trans h1)
      have h3 : ¬ (f t).id = tid' := by
        rw [hf]
        exact h2
      rw [if_pos h1]
      rw [List.find?_cons_of_neg _ (by simpa using h3),
          List.find?_cons_of_neg _ (by simpa using h2), ih]
    · rw [if_neg h1]
      by_cases h2 : t.id = tid'
      · rw [List.find?_cons_of_pos _ (by simpa using h2),
            List.find?_cons_of_pos _ (by simpa using h2)]
      · rw [List.find?_cons_of_neg _ (by simpa using h2),
            List.find?_cons_of_neg _ (by simpa using h2), ih]

theorem findPlayer_recalc (s : GameState) (tid : TileId) (tok : String) :
    findPlayer (recalcPublicTroops s tid) tok = findPlayer s tok := rfl

theorem players_recalc (s : GameState) (tid : TileId) :
    (recalcPublicTroops s tid).players = s.players := rfl

theorem lookupTile_recalc_ne (s : GameState) (tid tid' : TileId) (h : ¬ tid' = tid) :
    lookupTile (recalcPublicTroops s tid).tiles tid' = lookupTile s.tiles tid' := by
  unfold recalcPublicTroops
  exact lookupTile_updTile_ne s.tiles tid tid' _ (fun t => rfl) h

theorem lookupTile_recalc_self (s : GameState) (tid : TileId) :
    lookupTile (recalcPublicTroops s tid).tiles tid
      = (lookupTile s.tiles tid).map
          (fun t => { t with publicTroops := sumTroopsAt s.players tid }) := by
  unfold recalcPublicTroops
  exact lookupTile_updTile_self s.tiles tid _ (fun t => rfl)

theorem isNeighbor_ne (a b : TileId) (h : isNeighbor a b = true) : ¬ a = b := by
  intro heq
  subst heq
  simp [isNeighbor, neighborsOf, DIRS, Prod.ext_iff] at h

theorem findPlayer_setTiles (s : GameState) (ts : List Tile) (tok : String) :
    findPlayer { s with tiles := ts } tok = findPlayer s tok := rfl

/-! A small concrete world used by the witnesses and counterexamples: a
two-faction map with both capitals, a front line, and two players (alice of
f1 with a garrison on her border tile and a remnant garrison stranded on an
enemy tile, bob of f2 garrisoned next to the f1 capital). Its publicTroops
caches are coherent and its troop entries are positive. -/

def capF1 : Tile :=
  { id := (0, 0), ownerFaction := "f1", control := 100, isCapital := true,
    publicTroops := 0 }

def borderF1 : Tile :=
  { id := (1, 0), ownerFaction := "f1", control := 100, isCapital := false,
    publicTroops := 10 }

def frontF2 : Tile :=
  { id := (2, 0), ownerFaction := "f2", control := 2, isCapital := false,
    publicTroops := 5 }

def capF2 : Tile :=
  { id := (3, 0), ownerFaction := "f2", control := 100, isCapital := true,
    publicTroops := 0 }

def farF2 : Tile :=
  { id := (2, 1), ownerFaction := "f2", control := 4, isCapital := false,
    publicTroops := 0 }

def nearCapF2 : Tile :=
  { id := (-1, 0), ownerFaction := "f2", control := 30, isCapital := false,
    publicTroops := 7 }

def alice : Player :=
  { token := "tA", name := "Alice", factionId := "f1",
    troops := [((1, 0), 10), ((2, 0), 5)],
    producedPrecise := 0, produced := 0, inventory := 10,
    remainingMs := 300000, recruitDurationMs := 300000, reserveCap := 1000 }

def bob : Player :=
  { token := "tB", name := "Bob", factionId := "f2",
    troops := [((-1, 0), 7)],
    producedPrecise := 0, produced := 4, inventory := 3,
    remainingMs := 0, recruitDurationMs := 300000, reserveCap := 1000 }

def baseState : GameState :=
  { tiles := [capF1, borderF1, frontF2, capF2, farF2, nearCapF2],
    factions := [{ id := "f1", name := "Ouro Kronii", color := "#1e3a8a" },
                 { id := "f2", name := "Hakos Baelz", color := "#ef4444" }],
    capitalsByFaction := [("f1", (0, 0)), ("f2", (3, 0))],
    players := [alice, bob],
    tokenToSocket := [("tA", 1), ("tB", 2)],
    ipToToken := [("ip1", "tA"), ("ip2", "tB")] }

/-- Claim C7: on every recruitment tick, for every known player (the tick
iterates the players map itself, so membership alone is the hypothesis and
disconnected players are not skipped): with
perSecond = reserveCap / (recruitDurationMs / 1000), while remainingMs > 0
it decreases by the 1000 ms tick period floored at 0 (truncated ℕ
subtraction) and the accumulator grows by perSecond capped at reserveCap;
once remainingMs is 0 it stays 0 and the accumulator is pinned at its capped
value; and in all cases produced is the floor of the accumulator. -/
theorem recruit_tick_production (s : GameState) (p : Player) (hp : p ∈ s.players) :
    tickPlayer p ∈ (recruitTick s).players
  ∧ (0 < p.remainingMs →
        (tickPlayer p).remainingMs = p.remainingMs - 1000
      ∧ (tickPlayer p).producedPrecise
          = min (p.reserveCap : ℚ)
              (p.producedPrecise + (p.reserveCap : ℚ) / ((p.recruitDurationMs : ℚ) / 1000)))
  ∧ (p.remainingMs = 0 →
        (tickPlayer p).remainingMs = 0
      ∧ (tickPlayer p).producedPrecise = min (p.reserveCap : ℚ) p.producedPrecise)
  ∧ (tickPlayer p).produced = ⌊(tickPlayer p).producedPrecise⌋ := by
  refine ⟨List.mem_map_of_mem tickPlayer hp, ?_, ?_, ?_⟩
  · intro hrem
    unfold tickPlayer
    rw [if_pos hrem]
    exact ⟨rfl, rfl⟩
  · intro hrem
    unfold tickPlayer
    rw [if_neg (by rw [hrem]; exact lt_irrefl 0)]
    exact ⟨hrem, rfl⟩
  · unfold tickPlayer
    by_cases hrem : 0 < p.remainingMs
    · rw [if_pos hrem]
    · rw [if_neg hrem]

theorem recruit_tick_production_witness :
    alice ∈ baseState.players
  ∧ tickPlayer alice ∈ (recruitTick baseState).players
  ∧ (tickPlayer alice).remainingMs = alice.remainingMs - 1000 := by
  have h := recruit_tick_production baseState alice (by decide)
  exact ⟨by decide, h.1, (h.2.1 (by decide)).1⟩

/-- Claim C9 (amended): with origin-locking enabled, a second connection
from the same origin while the first session's connection is live is
refused at admission time with a session_error (and the refused socket is
disconnected before any join it might carry is processed, so that
connection creates no player record); a repeat join sent on the first
session's own already-admitted connection is, however, not origin-checked.
-/
theorem origin_lock_rejects_second_connection (cfg : Config) (s : GameState)
    (ip tok : String)
    (hlock : cfg.disableIpLock = false)
    (hbound : alookup s.ipToToken ip = some tok)
    (hlive : hasKey s.tokenToSocket tok = true) :
    handleConnection cfg s ip
      = (false, [Ev.sessionError "Only one active session per IP is allowed."]) := by
  unfold handleConnection
  rw [hlock]
  simp only [Bool.false_eq_true, not_false_eq_true, if_true, hbound, hlive, if_pos]

theorem origin_lock_rejects_second_connection_witness :
    handleConnection defaultCfg baseState "ip1"
      = (false, [Ev.sessionError "Only one active session per IP is allowed."]) :=
  origin_lock_rejects_second_connection defaultCfg baseState "ip1" "tA" rfl
    (by decide) (by decide)

/-- Claim C9 counterexample: origin-locking is enabled, origin ip1 is bound
to the token tA whose connection (socket 1) is live, yet a second join from
that same origin, arriving on that same admitted connection, is accepted:
the join handler performs no origin check, so it emits joined (never
session_error) and a second player record now exists for the origin. -/
theorem second_join_same_origin_cex :
    defaultCfg.disableIpLock = false
  ∧ alookup baseState.ipToToken "ip1" = some "tA"
  ∧ hasKey baseState.tokenToSocket "tA" = true
  ∧ (handleJoin defaultCfg baseState 1 "ip1" "tC" "Mallory" "f1").2
      = [Ev.tileUpdate (0, 0), Ev.joinedOk "tC", Ev.playersRoster]
  ∧ (handleJoin defaultCfg baseState 1 "ip1" "tC" "Mallory" "f1").1.players.length
      = baseState.players.length + 1 := by
  decide

/-- Claim C2 (code-bug exhibit): the join handler credits the starting
garrison and calls recalcPublicTroops on the capital BEFORE inserting the
new player into the players map, so the recomputation cannot see the
garrison it just credited. Starting from a state whose publicTroops caches
are all coherent, after a join completes the capital tile still carries
publicTroops 0 although the player troop sum there is 100 (the configured
START_TROOPS), and the tile_update emitted by the join carries that stale
tile; the coherence invariant is broken at a point observable after the
action completes. -/
theorem publictroops_stale_after_join :
    pubOK baseState
  ∧ (lookupTile (handleJoin defaultCfg baseState 3 "ip3" "tC" "Carol" "f1").1.tiles
      (0, 0)).map Tile.publicTroops = some 0
  ∧ sumTroopsAt (handleJoin defaultCfg baseState 3 "ip3" "tC" "Carol" "f1").1.players
      (0, 0) = 100
  ∧ ¬ pubOK (handleJoin defaultCfg baseState 3 "ip3" "tC" "Carol" "f1").1 := by
  decide

/-- Claim C6 counterexample: a reachable state (one join applied to a
coherent world) on which snapshot-then-restore does not reproduce the tile
state: the join left the capital's publicTroops cache stale at 0, and the
restore recomputes it to the true player sum 100, so the restored tiles
differ from the pre-snapshot tiles (the players do round-trip exactly). -/
theorem snapshot_roundtrip_cex :
    (loadSnapshot defaultCfg
        (snapshotOf defaultCfg (handleJoin defaultCfg baseState 3 "ip3" "tC" "Carol" "f1").1)
        (handleJoin defaultCfg baseState 3 "ip3" "tC" "Carol" "f1").1).players
      = (handleJoin defaultCfg baseState 3 "ip3" "tC" "Carol" "f1").1.players
  ∧ ¬ ((loadSnapshot defaultCfg
        (snapshotOf defaultCfg (handleJoin defaultCfg baseState 3 "ip3" "tC" "Carol" "f1").1)
        (handleJoin defaultCfg baseState 3 "ip3" "tC" "Carol" "f1").1).tiles
      = (handleJoin defaultCfg baseState 3 "ip3" "tC" "Carol" "f1").1.tiles) := by
  decide

/-- Restoring one serialized tile and recomputing its publicTroops from the
players reproduces the tile whenever its cache was coherent. -/
theorem restore_tile_pointwise (ps : List Player) (t : Tile)
    (hpt : t.publicTroops = sumTroopsAt ps t.id) :
    ({ id := t.id, ownerFaction := t.ownerFaction, control := t.control,
       isCapital := t.isCapital, publicTroops := sumTroopsAt ps t.id } : Tile) = t := by
  cases t with
  | mk tid owner control iscap pub =>
    simp only at hpt
    simp only
    rw [hpt]

/-- Claim C6 (amended): for every state whose publicTroops caches are
coherent (equal to the per-tile sums over the players, the intended
invariant of the store), snapshot followed by restore reproduces the state
exactly; this also holds for a snapshot from the older schema with the
publicTroops field missing, which restores as 0 and is then recomputed to
the same values. Without the coherence proviso the restore recomputes
publicTroops from the players, which can differ from a stale pre-snapshot
cache produced by a join (see the counterexample). -/
theorem snapshot_roundtrip (cfg : Config) (s : GameState) (hpub : pubOK s) :
    loadSnapshot cfg (snapshotOf cfg s) s = s
  ∧ loadSnapshot cfg (stripPublicTroops (snapshotOf cfg s)) s = s := by
  constructor
  · cases s with
    | mk ts fs caps ps t2s ip =>
      simp only [loadSnapshot, snapshotOf, recalcAllPublicTroops, GameState.mk.injEq]
      refine ⟨?_, trivial, trivial, trivial, trivial, ?_⟩
      · rw [List.map_map, List.map_map]
        refine (List.map_congr_left (fun t ht => ?_)).trans (List.map_id ts)
        show ({ id := t.id, ownerFaction := t.ownerFaction, control := t.control,
                isCapital := t.isCapital, publicTroops := sumTroopsAt ps t.id } : Tile) = t
        exact restore_tile_pointwise ps t (hpub t ht)
      · by_cases h : cfg.disableIpLock
        · simp [h]
        · simp [h]
  · cases s with
    | mk ts fs caps ps t2s ip =>
      simp only [loadSnapshot, snapshotOf, stripPublicTroops, recalcAllPublicTroops,
        GameState.mk.injEq]
      refine ⟨?_, trivial, trivial, trivial, trivial, ?_⟩
      · rw [List.map_map, List.map_map, List.map_map]
        refine (List.map_congr_left (fun t ht => ?_)).trans (List.map_id ts)
        show ({ id := t.id, ownerFaction := t.ownerFaction, control := t.control,
                isCapital := t.isCapital, publicTroops := sumTroopsAt ps t.id } : Tile) = t
        exact restore_tile_pointwise ps t (hpub t ht)
      · by_cases h : cfg.disableIpLock
        · simp [h]
        · simp [h]

theorem snapshot_roundtrip_witness :
    pubOK baseState
  ∧ loadSnapshot defaultCfg (snapshotOf defaultCfg baseState) baseState = baseState
  ∧ loadSnapshot defaultCfg (stripPublicTroops (snapshotOf defaultCfg baseState))
      baseState = baseState := by
  have h := snapshot_roundtrip defaultCfg baseState (by decide)
  exact ⟨by decide, h.1, h.2⟩

/-! Troop-entry positivity machinery. -/

theorem pos_delTroops (tr : List (TileId × ℕ)) (tid : TileId)
    (h : ∀ e ∈ tr, 0 < e.2) : ∀ e ∈ delTroops tr tid, 0 < e.2 := by
  intro e he
  exact h e (List.mem_filter.mp he).1

theorem pos_setTroops (tr : List (TileId × ℕ)) (tid : TileId) (v : ℕ)
    (h : ∀ e ∈ tr, 0 < e.2) (hv : 0 < v) : ∀ e ∈ setTroops tr tid v, 0 < e.2 := by
  intro e he
  rcases List.mem_cons.mp he with h1 | h1
  · rw [h1]
    exact hv
  · exact h e (List.mem_filter.mp h1).1

theorem pos_debitTroops (tr : List (TileId × ℕ)) (tid : TileId) (a : ℕ)
    (h : ∀ e ∈ tr, 0 < e.2) : ∀ e ∈ debitTroops tr tid a, 0 < e.2 := by
  show ∀ e ∈ (if (alookup tr tid).getD 0 - a = 0 then delTroops tr tid
      else setTroops tr tid ((alookup tr tid).getD 0 - a)), 0 < e.2
  by_cases h0 : (alookup tr tid).getD 0 - a = 0
  · rw [if_pos h0]
    exact pos_delTroops tr tid h
  · rw [if_neg h0]
    exact pos_setTroops tr tid _ h (Nat.pos_of_ne_zero h0)

theorem troopsPos_updPlayer (s : GameState) (token : String) (f : Player → Player)
    (hf : ∀ q, (∀ e ∈ q.troops, 0 < e.2) → ∀ e ∈ (f q).troops, 0 < e.2)
    (hs : troopsPos s) : troopsPos (updPlayer s token f) := by
  intro p hp
  unfold updPlayer at hp
  simp only at hp
  rcases List.mem_map.mp hp with ⟨q, hq, heq⟩
  by_cases h : q.token = token
  · rw [← heq, if_pos h]
    exact hf q (hs q hq)
  · rw [← heq, if_neg h]
    exact hs q hq

/-- Claim C5: for every player and after every operation (join, deploy,
move, attack, recruit_collect), the troops mapping never contains a zero or
negative entry: an entry that would reach zero is removed from the map, and
absence of a key means zero. Counts are naturals here, so the content is
that no stored entry is 0. The join case needs the configured starting
garrison to be positive, as the source default START_TROOPS = 100 is (a
deployment configured with START_TROOPS = 0 would store a zero entry at the
capital on join). -/
theorem troops_entries_positive (cfg : Config) (a : Action) (s : GameState)
    (hst : 1 ≤ cfg.startTroops) (hs : troopsPos s) :
    troopsPos (applyAction cfg a s).1 := by
  cases a with
  | join sockId ip tok nm fid =>
    show troopsPos (handleJoin cfg s sockId ip tok nm fid).1
    unfold handleJoin
    split
    · exact hs
    · split
      · intro p hp
        simp only at hp
        rcases List.mem_append.mp hp with h1 | h1
        · exact hs p h1
        · rw [List.mem_singleton.mp h1]
          exact pos_setTroops _ _ _ (by intro e he; cases he)
            (Nat.lt_of_lt_of_le (by omega) (Nat.le_add_left _ _))
      · intro p hp
        simp only at hp
        rcases List.mem_append.mp hp with h1 | h1
        · exact hs p h1
        · rw [List.mem_singleton.mp h1]
          intro e he
          cases he
  | deploy tok tid amt l =>
    show troopsPos (handleDeploy cfg s tok tid amt l).1
    unfold handleDeploy
    split
    · exact hs
    · split
      · exact hs
      · split
        · exact hs
        · split
          · exact hs
          · next hamt =>
            split
            · exact hs
            · dsimp only
              split
              · exact troopsPos_updPlayer s tok _
                  (fun q hq => pos_setTroops _ _ _ hq
                    (Nat.lt_of_lt_of_le
                      (by have h1 : ¬ amt < 1 := fun hlt => hamt (Or.inl hlt); omega)
                      (Nat.le_add_left _ _))) hs
              · exact hs
  | move tok fromId toId amt l =>
    show troopsPos (handleMove s tok fromId toId amt l).1
    unfold handleMove
    split
    · exact hs
    · split
      · exact hs
      · split
        · split
          · exact hs
          · split
            · exact hs
            · split
              · exact hs
              · split
                · exact hs
                · dsimp only
                  rename_i hamt hadj hown htr
                  exact troopsPos_updPlayer s tok _
                    (fun q hq => pos_setTroops _ _ _ (pos_debitTroops _ _ _ hq)
                      (Nat.lt_of_lt_of_le (by omega) (Nat.le_add_left _ _))) hs
        · exact hs
  | attack tok fromId tgtId amt l =>
    show troopsPos (handleAttack s tok fromId tgtId amt l).1
    unfold handleAttack
    split
    · exact hs
    · split
      · exact hs
      · split
        · next hamt =>
          split
          · exact hs
          · split
            · exact hs
            · split
              · exact hs
              · split
                · exact hs
                · split
                  · exact hs
                  · dsimp only
                    split
                    · next hcmp =>
                      exact troopsPos_updPlayer s tok _
                        (fun q hq => pos_setTroops _ _ _ (pos_debitTroops _ _ _ hq)
                          (Nat.lt_of_lt_of_le (by omega) (Nat.le_add_left _ _))) hs
                    · exact troopsPos_updPlayer s tok _
                        (fun q hq => pos_debitTroops _ _ _ hq) hs
        · exact hs
  | collect tok l =>
    show troopsPos (handleCollect cfg s tok l).1
    unfold handleCollect
    split
    · exact hs
    · split
      · exact hs
      · split
        · exact troopsPos_updPlayer s tok _ (fun q hq => hq) hs
        · exact hs

theorem troops_entries_positive_witness :
    troopsPos baseState
  ∧ troopsPos (applyAction defaultCfg (Action.attack "tA" (1, 0) (2, 0) 10 true) baseState).1 := by
  refine ⟨by decide, ?_⟩
  exact troops_entries_positive defaultCfg (Action.attack "tA" (1, 0) (2, 0) 10 true)
    baseState (by decide) (by decide)

theorem alookup_setTroops_self (tr : List (TileId × ℕ)) (tid : TileId) (v : ℕ) :
    alookup (setTroops tr tid v) tid = some v :=
  alookup_setAssoc_self tr tid v

theorem alookup_setTroops_ne (tr : List (TileId × ℕ)) (tid tid2 : TileId) (v : ℕ)
    (h : ¬ tid2 = tid) :
    alookup (setTroops tr tid v) tid2 = alookup tr tid2 :=
  alookup_setAssoc_ne tr tid tid2 v h

/-- Claim C10: for every attack by a player, in every branch (capture,
repelled, or any rejection), the troops mappings of all other players are
unchanged, and the acting player's own entries at tiles other than fromTile
and targetTile are unchanged; in particular troop entries other players had
stationed on a captured tile persist unmodified. -/
theorem attack_frame (s : GameState) (token tok2 : String) (p : Player)
    (fromId targetId tid : TileId) (amount : ℕ) (limOk : Bool)
    (hp : findPlayer s token = some p)
    (hne : ¬ tok2 = token)
    (h1 : ¬ tid = fromId) (h2 : ¬ tid = targetId) :
    findPlayer (handleAttack s token fromId targetId amount limOk).1 tok2
      = findPlayer s tok2
  ∧ (findPlayer (handleAttack s token fromId targetId amount limOk).1 token).map
      (fun q => getTroops q tid) = some (getTroops p tid) := by
  unfold handleAttack
  split
  · next heq =>
    rw [hp] at heq
    cases heq
  · next p2 heq =>
    have hp2 : p2 = p := by
      rw [hp] at heq
      exact (Option.some.inj heq).symm
    subst hp2
    split
    · exact ⟨rfl, by rw [hp]; rfl⟩
    · split
      · next fr tg heqf heqt =>
        split
        · exact ⟨rfl, by rw [hp]; rfl⟩
        · split
          · exact ⟨rfl, by rw [hp]; rfl⟩
          · split
            · exact ⟨rfl, by rw [hp]; rfl⟩
            · split
              · exact ⟨rfl, by rw [hp]; rfl⟩
              · split
                · exact ⟨rfl, by rw [hp]; rfl⟩
                · dsimp only
                  split
                  · constructor
                    · exact findPlayer_updPlayer_ne s token tok2 _ (fun q => rfl) hne
                    · have hfp := findPlayer_updPlayer_self s token
                        (fun q => { q with troops :=
                          (setTroops (debitTroops q.troops fromId amount) targetId
                            ((alookup (debitTroops q.troops fromId amount) targetId).getD 0
                              + (amount - tg.control))) })
                        (fun q => rfl)
                      rw [findPlayer_recalc, findPlayer_recalc, findPlayer_setTiles,
                          hfp, hp, Option.map_some', Option.map_some']
                      unfold getTroops
                      rw [alookup_setTroops_ne _ _ _ _ h2, alookup_debit_ne _ _ _ _ h1]
                  · constructor
                    · exact findPlayer_updPlayer_ne s token tok2 _ (fun q => rfl) hne
                    · have hfp := findPlayer_updPlayer_self s token
                        (fun q => { q with troops := debitTroops q.troops fromId amount })
                        (fun q => rfl)
                      rw [findPlayer_recalc, findPlayer_setTiles,
                          hfp, hp, Option.map_some', Option.map_some']
                      unfold getTroops
                      rw [alookup_debit_ne _ _ _ _ h1]
      · exact ⟨rfl, by rw [hp]; rfl⟩

theorem attack_frame_witness :
    findPlayer (handleAttack baseState "tA" (1, 0) (2, 0) 10 true).1 "tB"
      = findPlayer baseState "tB"
  ∧ (findPlayer (handleAttack baseState "tA" (1, 0) (2, 0) 10 true).1 "tA").map
      (fun q => getTroops q (0, 0)) = some (getTroops alice (0, 0)) :=
  attack_frame baseState "tA" "tB" alice (1, 0) (2, 0) (0, 0) 10 true
    (by decide) (by decide) (by decide) (by decide)

theorem lookupTile_updPlayer (s : GameState) (token : String) (f : Player → Player)
    (tid : TileId) :
    lookupTile (updPlayer s token f).tiles tid = lookupTile s.tiles tid := rfl

/-- Claim C1 (amended): for every attack by a player with a resolved session
passing the rate limiter, where fromTile is owned by the player faction
with at least amount troops there, the tiles are hex-neighbors and the
target is not a capital: if amount > control (strictly), the capture
succeeds: amount is debited at fromTile, survivors = amount - control are
credited onto the attacker troop entry at targetTile (so the entry becomes
its previous value plus the survivors: exactly the survivors whenever the
attacker had no prior entry there), ownerFaction becomes the attacker
faction, control becomes 0 and a combat_result is emitted; if amount <=
control (ties included) ownership does not change, amount is debited with
no survivors, control decreases by exactly amount, and no combat_result is
emitted. -/
theorem attack_resolution (s : GameState) (token : String) (p : Player)
    (fromId targetId : TileId) (amount : ℕ) (fr tg : Tile)
    (hp : findPlayer s token = some p)
    (hfr : lookupTile s.tiles fromId = some fr)
    (htg : lookupTile s.tiles targetId = some tg)
    (hown : fr.ownerFaction = p.factionId)
    (hen : amount ≤ getTroops p fromId)
    (hadj : isNeighbor fromId targetId = true)
    (hcap : tg.isCapital = false) :
    (tg.control < amount →
        (findPlayer (handleAttack s token fromId targetId amount true).1 token).map
            (fun q => getTroops q fromId) = some (getTroops p fromId - amount)
      ∧ (findPlayer (handleAttack s token fromId targetId amount true).1 token).map
            (fun q => getTroops q targetId)
          = some (getTroops p targetId + (amount - tg.control))
      ∧ (lookupTile (handleAttack s token fromId targetId amount true).1.tiles targetId).map
            Tile.ownerFaction = some p.factionId
      ∧ (lookupTile (handleAttack s token fromId targetId amount true).1.tiles targetId).map
            Tile.control = some 0
      ∧ Ev.combatResult fromId targetId (amount - tg.control)
          ∈ (handleAttack s token fromId targetId amount true).2)
  ∧ (amount ≤ tg.control →
        (findPlayer (handleAttack s token fromId targetId amount true).1 token).map
            (fun q => getTroops q fromId) = some (getTroops p fromId - amount)
      ∧ (findPlayer (handleAttack s token fromId targetId amount true).1 token).map
            (fun q => getTroops q targetId) = some (getTroops p targetId)
      ∧ (lookupTile (handleAttack s token fromId targetId amount true).1.tiles targetId).map
            Tile.ownerFaction = some tg.ownerFaction
      ∧ (lookupTile (handleAttack s token fromId targetId amount true).1.tiles targetId).map
            Tile.control = some (tg.control - amount)
      ∧ hasCombat (handleAttack s token fromId targetId amount true).2 = false) := by
  have n1 : ¬ fromId = targetId := isNeighbor_ne fromId targetId hadj
  have n2 : ¬ targetId = fromId := fun h => n1 h.symm
  constructor
  · intro hlt
    unfold handleAttack
    simp only [hp, hfr, htg]
    rw [if_neg (show ¬ (true = false) by simp)]
    rw [if_neg (show ¬ amount < 1 by omega)]
    rw [if_neg (show ¬ ¬ fr.ownerFaction = p.factionId from fun hno => hno hown)]
    rw [if_neg (Nat.not_lt.mpr hen)]
    rw [if_neg (show ¬ ¬ (isNeighbor fromId targetId = true) from fun hno => hno hadj)]
    rw [if_neg (show ¬ tg.isCapital = true by rw [hcap]; exact Bool.false_ne_true)]
    rw [if_pos hlt]
    dsimp only
    have hfp := findPlayer_updPlayer_self s token
      (fun q => { q with troops :=
        (setTroops (debitTroops q.troops fromId amount) targetId
          ((alookup (debitTroops q.troops fromId amount) targetId).getD 0
            + (amount - tg.control))) })
      (fun q => rfl)
    refine ⟨?_, ?_, ?_, ?_, ?_⟩
    · rw [findPlayer_recalc, findPlayer_recalc, findPlayer_setTiles, hfp, hp,
          Option.map_some', Option.map_some']
      unfold getTroops
      rw [alookup_setTroops_ne _ _ _ _ n1, getD_alookup_debit_self]
    · rw [findPlayer_recalc, findPlayer_recalc, findPlayer_setTiles, hfp, hp,
          Option.map_some', Option.map_some']
      unfold getTroops
      rw [alookup_setTroops_self, alookup_debit_ne _ _ _ _ n2]
      rfl
    · rw [lookupTile_recalc_self, lookupTile_recalc_ne _ _ _ n2]
      rw [lookupTile_updTile_self _ _
        (fun t => { t with ownerFaction := p.factionId, control := 0 }) (fun t => rfl)]
      rw [lookupTile_updPlayer, htg]
      rfl
    · rw [lookupTile_recalc_self, lookupTile_recalc_ne _ _ _ n2]
      rw [lookupTile_updTile_self _ _
        (fun t => { t with ownerFaction := p.factionId, control := 0 }) (fun t => rfl)]
      rw [lookupTile_updPlayer, htg]
      rfl
    · simp
  · intro hle
    unfold handleAttack
    simp only [hp, hfr, htg]
    rw [if_neg (show ¬ (true = false) by simp)]
    by_cases h0 : amount = 0
    · rw [if_pos (show amount < 1 by omega)]
      subst h0
      refine ⟨?_, ?_, ?_, ?_, ?_⟩
      · rw [hp, Option.map_some', Nat.sub_zero]
      · rw [hp, Option.map_some']
      · rw [htg, Option.map_some']
      · rw [htg, Option.map_some', Nat.sub_zero]
      · rfl
    · rw [if_neg (show ¬ amount < 1 by omega)]
      rw [if_neg (show ¬ ¬ fr.ownerFaction = p.factionId from fun hno => hno hown)]
      rw [if_neg (Nat.not_lt.mpr hen)]
      rw [if_neg (show ¬ ¬ (isNeighbor fromId targetId = true) from fun hno => hno hadj)]
      rw [if_neg (show ¬ tg.isCapital = true by rw [hcap]; exact Bool.false_ne_true)]
      rw [if_neg (Nat.not_lt.mpr hle)]
      dsimp only
      have hfp := findPlayer_updPlayer_self s token
        (fun q => { q with troops := debitTroops q.troops fromId amount })
        (fun q => rfl)
      refine ⟨?_, ?_, ?_, ?_, ?_⟩
      · rw [findPlayer_recalc, findPlayer_setTiles, hfp, hp,
            Option.map_some', Option.map_some']
        unfold getTroops
        rw [getD_alookup_debit_self]
      · rw [findPlayer_recalc, findPlayer_setTiles, hfp, hp,
            Option.map_some', Option.map_some']
        unfold getTroops
        rw [alookup_debit_ne _ _ _ _ n2]
      · rw [lookupTile_recalc_ne _ _ _ n2]
        rw [lookupTile_updTile_self _ _
          (fun t => { t with control := tg.control - amount }) (fun t => rfl)]
        rw [lookupTile_updPlayer, htg]
        rfl
      · rw [lookupTile_recalc_ne _ _ _ n2]
        rw [lookupTile_updTile_self _ _
          (fun t => { t with control := tg.control - amount }) (fun t => rfl)]
        rw [lookupTile_updPlayer, htg]
        rfl
      · rfl

theorem attack_resolution_witness :
    ((findPlayer (handleAttack baseState "tA" (1, 0) (2, 0) 3 true).1 "tA").map
        (fun q => getTroops q (1, 0)) = some (getTroops alice (1, 0) - 3)
      ∧ (findPlayer (handleAttack baseState "tA" (1, 0) (2, 0) 3 true).1 "tA").map
          (fun q => getTroops q (2, 0)) = some (getTroops alice (2, 0) + (3 - frontF2.control))
      ∧ (lookupTile (handleAttack baseState "tA" (1, 0) (2, 0) 3 true).1.tiles (2, 0)).map
          Tile.ownerFaction = some alice.factionId
      ∧ (lookupTile (handleAttack baseState "tA" (1, 0) (2, 0) 3 true).1.tiles (2, 0)).map
          Tile.control = some 0
      ∧ Ev.combatResult (1, 0) (2, 0) (3 - frontF2.control)
          ∈ (handleAttack baseState "tA" (1, 0) (2, 0) 3 true).2)
  ∧ ((findPlayer (handleAttack baseState "tA" (1, 0) (2, 0) 2 true).1 "tA").map
        (fun q => getTroops q (1, 0)) = some (getTroops alice (1, 0) - 2)
      ∧ (findPlayer (handleAttack baseState "tA" (1, 0) (2, 0) 2 true).1 "tA").map
          (fun q => getTroops q (2, 0)) = some (getTroops alice (2, 0))
      ∧ (lookupTile (handleAttack baseState "tA" (1, 0) (2, 0) 2 true).1.tiles (2, 0)).map
          Tile.ownerFaction = some frontF2.ownerFaction
      ∧ (lookupTile (handleAttack baseState "tA" (1, 0) (2, 0) 2 true).1.tiles (2, 0)).map
          Tile.control = some (frontF2.control - 2)
      ∧ hasCombat (handleAttack baseState "tA" (1, 0) (2, 0) 2 true).2 = false) :=
  ⟨(attack_resolution baseState "tA" alice (1, 0) (2, 0) 3 borderF1 frontF2
      (by decide) (by decide) (by decide) (by decide) (by decide) (by decide)
      (by decide)).1 (by decide),
   (attack_resolution baseState "tA" alice (1, 0) (2, 0) 2 borderF1 frontF2
      (by decide) (by decide) (by decide) (by decide) (by decide) (by decide)
      (by decide)).2 (by decide)⟩

/-- Claim C1 counterexample (to the claim as stated): the claim says the
survivors become the attacker troop entry at the target, but the source
adds them to any existing entry. Here alice, of faction f1, still has 5
troops stationed on the enemy tile (2, 0) (entries persist on tiles
captured by another faction, compare the frame theorem, so this
configuration is action-reachable) and attacks it from her own adjacent
tile (1, 0) with 10 against control 2: the capture succeeds with survivors
8, yet her entry at the target becomes 13, not 8. -/
theorem attack_survivors_credit_cex :
    (lookupTile baseState.tiles (2, 0)).map Tile.isCapital = some false
  ∧ (lookupTile baseState.tiles (2, 0)).map Tile.control = some 2
  ∧ isNeighbor (1, 0) (2, 0) = true
  ∧ (findPlayer baseState "tA").map (fun q => getTroops q (2, 0)) = some 5
  ∧ Ev.combatResult (1, 0) (2, 0) 8 ∈ (handleAttack baseState "tA" (1, 0) (2, 0) 10 true).2
  ∧ (findPlayer (handleAttack baseState "tA" (1, 0) (2, 0) 10 true).1 "tA").map
      (fun q => getTroops q (2, 0)) = some 13
  ∧ ¬ (13 : ℕ) = 10 - 2 := by
  decide

theorem recalc_occ_map (s : GameState) (tidr tid : TileId) :
    ((lookupTile (recalcPublicTroops s tidr).tiles tid).map Tile.ownerFaction
        = (lookupTile s.tiles tid).map Tile.ownerFaction)
  ∧ ((lookupTile (recalcPublicTroops s tidr).tiles tid).map Tile.isCapital
        = (lookupTile s.tiles tid).map Tile.isCapital)
  ∧ ((lookupTile (recalcPublicTroops s tidr).tiles tid).map Tile.control
        = (lookupTile s.tiles tid).map Tile.control) := by
  by_cases h : tid = tidr
  · subst h
    rw [lookupTile_recalc_self]
    cases lookupTile s.tiles tid with
    | none => exact ⟨rfl, rfl, rfl⟩
    | some t => exact ⟨rfl, rfl, rfl⟩
  · rw [lookupTile_recalc_ne _ _ _ h]
    exact ⟨rfl, rfl, rfl⟩

/-- A single attack request never changes the ownerFaction, isCapital flag
or control of a capital tile: a capital is never the target of the mutating
branches (the handler rejects capital targets first), and the posterior
publicTroops recomputations touch no other field. -/
theorem attack_capital_step (s : GameState) (token : String)
    (fromId targetId : TileId) (amount : ℕ) (limOk : Bool) (tid : TileId)
    (hcap : (lookupTile s.tiles tid).map Tile.isCapital = some true) :
    ((lookupTile (handleAttack s token fromId targetId amount limOk).1.tiles tid).map
        Tile.ownerFaction = (lookupTile s.tiles tid).map Tile.ownerFaction)
  ∧ ((lookupTile (handleAttack s token fromId targetId amount limOk).1.tiles tid).map
        Tile.isCapital = some true)
  ∧ ((lookupTile (handleAttack s token fromId targetId amount limOk).1.tiles tid).map
        Tile.control = (lookupTile s.tiles tid).map Tile.control) := by
  unfold handleAttack
  split
  · exact ⟨rfl, hcap, rfl⟩
  · next p2 heqp =>
    split
    · exact ⟨rfl, hcap, rfl⟩
    · split
      · next fr tg heqf heqt =>
        split
        · exact ⟨rfl, hcap, rfl⟩
        · split
          · exact ⟨rfl, hcap, rfl⟩
          · split
            · exact ⟨rfl, hcap, rfl⟩
            · split
              · exact ⟨rfl, hcap, rfl⟩
              · split
                · exact ⟨rfl, hcap, rfl⟩
                · next hng =>
                  have hnt : ¬ tid = targetId := by
                    intro hEq
                    rw [hEq, heqt] at hcap
                    exact hng (Option.some.inj hcap)
                  dsimp only
                  split
                  · refine ⟨?_, ?_, ?_⟩
                    · rw [(recalc_occ_map _ targetId tid).1, (recalc_occ_map _ fromId tid).1]
                      dsimp only
                      rw [lookupTile_updTile_ne _ targetId tid
                        (fun u => { u with ownerFaction := p2.factionId, control := 0 })
                        (fun u => rfl) hnt]
                      rw [lookupTile_updPlayer]
                    · rw [(recalc_occ_map _ targetId tid).2.1, (recalc_occ_map _ fromId tid).2.1]
                      dsimp only
                      rw [lookupTile_updTile_ne _ targetId tid
                        (fun u => { u with ownerFaction := p2.factionId, control := 0 })
                        (fun u => rfl) hnt]
                      rw [lookupTile_updPlayer]
                      exact hcap
                    · rw [(recalc_occ_map _ targetId tid).2.2, (recalc_occ_map _ fromId tid).2.2]
                      dsimp only
                      rw [lookupTile_updTile_ne _ targetId tid
                        (fun u => { u with ownerFaction := p2.factionId, control := 0 })
                        (fun u => rfl) hnt]
                      rw [lookupTile_updPlayer]
                  · refine ⟨?_, ?_, ?_⟩
                    · rw [(recalc_occ_map _ fromId tid).1]
                      dsimp only
                      rw [lookupTile_updTile_ne _ targetId tid
                        (fun u => { u with control := tg.control - amount })
                        (fun u => rfl) hnt]
                      rw [lookupTile_updPlayer]
                    · rw [(recalc_occ_map _ fromId tid).2.1]
                      dsimp only
                      rw [lookupTile_updTile_ne _ targetId tid
                        (fun u => { u with control := tg.control - amount })
                        (fun u => rfl) hnt]
                      rw [lookupTile_updPlayer]
                      exact hcap
                    · rw [(recalc_occ_map _ fromId tid).2.2]
                      dsimp only
                      rw [lookupTile_updTile_ne _ targetId tid
                        (fun u => { u with control := tg.control - amount })
                        (fun u => rfl) hnt]
                      rw [lookupTile_updPlayer]
      · exact ⟨rfl, hcap, rfl⟩

/-- Any sequence of attack requests leaves the ownerFaction, isCapital and
control of every capital tile untouched. -/
theorem attack_seq_capital (reqs : List AttackReq) (s : GameState) (tid : TileId)
    (hcap : (lookupTile s.tiles tid).map Tile.isCapital = some true) :
    ((lookupTile (applyAttacks reqs s).tiles tid).map Tile.ownerFaction
        = (lookupTile s.tiles tid).map Tile.ownerFaction)
  ∧ ((lookupTile (applyAttacks reqs s).tiles tid).map Tile.isCapital = some true)
  ∧ ((lookupTile (applyAttacks reqs s).tiles tid).map Tile.control
        = (lookupTile s.tiles tid).map Tile.control) := by
  induction reqs generalizing s with
  | nil => exact ⟨rfl, hcap, rfl⟩
  | cons r rs ih =>
    obtain ⟨o1, c1, k1⟩ :=
      attack_capital_step s r.token r.fromId r.targetId r.amount r.limOk tid hcap
    obtain ⟨o2, c2, k2⟩ := ih (handleAttack s r.token r.fromId r.targetId r.amount r.limOk).1 c1
    exact ⟨o2.trans o1, c2, k2.trans k1⟩

/-- An attack whose target is a capital leaves the whole state unchanged,
whichever validation rejects it. -/
theorem attack_capital_unchanged (s : GameState) (token : String) (fromId : TileId)
    (tid : TileId) (amount : ℕ) (limOk : Bool)
    (hcap : (lookupTile s.tiles tid).map Tile.isCapital = some true) :
    (handleAttack s token fromId tid amount limOk).1 = s := by
  unfold handleAttack
  split
  · rfl
  · split
    · rfl
    · split
      · next fr tg heqf heqt =>
        split
        · rfl
        · split
          · rfl
          · split
            · rfl
            · split
              · rfl
              · split
                · rfl
                · next hng =>
                  exfalso
                  rw [heqt] at hcap
                  exact hng (Option.some.inj hcap)
      · rfl

/-- An attack whose target is a capital and which passes every earlier
validation is rejected with the explicit capital error message. -/
theorem attack_capital_error (s : GameState) (token : String) (fromId tid : TileId)
    (amount : ℕ) (limOk : Bool)
    (hcap : (lookupTile s.tiles tid).map Tile.isCapital = some true)
    (hpre : attackPreChecks s token fromId tid amount limOk = true) :
    Ev.errorMsg "Capitals cannot be conquered."
      ∈ (handleAttack s token fromId tid amount limOk).2 := by
  unfold handleAttack
  split
  · next heq =>
    exfalso
    unfold attackPreChecks at hpre
    rw [heq] at hpre
    simp at hpre
  · next p2 heqp =>
    unfold attackPreChecks at hpre
    rw [heqp] at hpre
    split
    · next hlim =>
      exfalso
      cases hfr2 : lookupTile s.tiles fromId with
      | none => rw [hfr2] at hpre; simp at hpre
      | some fr2 =>
        cases htg2 : lookupTile s.tiles tid with
        | none => rw [hfr2, htg2] at hpre; simp at hpre
        | some tg2 =>
          rw [hfr2, htg2] at hpre
          simp only [Bool.and_eq_true] at hpre
          rw [hlim] at hpre
          simp at hpre
    · split
      · next fr tg heqf heqt =>
        rw [heqf, heqt] at hpre
        simp only [Bool.and_eq_true, Bool.not_eq_true', decide_eq_true_eq,
          decide_eq_false_iff_not] at hpre
        split
        · next hbad =>
          exact absurd hbad hpre.1.1.1.2
        · split
          · next hbad =>
            exact absurd hpre.1.1.2 hbad
          · split
            · next hbad =>
              exact absurd hbad hpre.1.2
            · split
              · next hbad =>
                exact absurd hpre.2 hbad
              · split
                · simp
                · next hng =>
                  exfalso
                  rw [heqt] at hcap
                  exact hng (Option.some.inj hcap)
      · next hcatch =>
        exfalso
        cases hfr2 : lookupTile s.tiles fromId with
        | none => rw [hfr2] at hpre; simp at hpre
        | some fr2 =>
          cases htg2 : lookupTile s.tiles tid with
          | none => rw [hfr2, htg2] at hpre; simp at hpre
          | some tg2 => exact hcatch fr2 tg2 hfr2 htg2

/-- Claim C3 (amended): for every capital tile, its ownerFaction, isCapital
flag and control are invariant under every sequence of attack requests, and
every attack that targets a capital leaves the entire state unchanged; the
rejection carries the explicit capital error message whenever the earlier
validations (resolved session, limiter, both tiles, positive amount, origin
ownership, troop sufficiency, adjacency) pass, and is silent otherwise (see
the counterexample to the unqualified claim). -/
theorem capital_immunity (s : GameState) (reqs : List AttackReq)
    (tid : TileId) (t : Tile) (token : String) (fromId : TileId)
    (amount : ℕ) (limOk : Bool)
    (ht : lookupTile s.tiles tid = some t) (hcap : t.isCapital = true) :
    (lookupTile (applyAttacks reqs s).tiles tid).map Tile.ownerFaction
        = some t.ownerFaction
  ∧ (lookupTile (applyAttacks reqs s).tiles tid).map Tile.isCapital = some true
  ∧ (lookupTile (applyAttacks reqs s).tiles tid).map Tile.control = some t.control
  ∧ (handleAttack s token fromId tid amount limOk).1 = s
  ∧ (attackPreChecks s token fromId tid amount limOk = true →
       Ev.errorMsg "Capitals cannot be conquered."
         ∈ (handleAttack s token fromId tid amount limOk).2) := by
  have hm : (lookupTile s.tiles tid).map Tile.isCapital = some true := by
    rw [ht, Option.map_some', hcap]
  obtain ⟨o, c, k⟩ := attack_seq_capital reqs s tid hm
  refine ⟨?_, c, ?_, attack_capital_unchanged s token fromId tid amount limOk hm,
    fun hpre => attack_capital_error s token fromId tid amount limOk hm hpre⟩
  · rw [o, ht, Option.map_some']
  · rw [k, ht, Option.map_some']

def capseqW : List AttackReq :=
  [{ token := "tB", fromId := (-1, 0), targetId := (0, 0), amount := 5, limOk := true },
   { token := "tA", fromId := (1, 0), targetId := (2, 0), amount := 3, limOk := true }]

theorem capital_immunity_witness :
    (lookupTile (applyAttacks capseqW baseState).tiles (0, 0)).map Tile.ownerFaction
        = some capF1.ownerFaction
  ∧ (lookupTile (applyAttacks capseqW baseState).tiles (0, 0)).map Tile.isCapital
        = some true
  ∧ (lookupTile (applyAttacks capseqW baseState).tiles (0, 0)).map Tile.control
        = some capF1.control
  ∧ (handleAttack baseState "tB" (-1, 0) (0, 0) 5 true).1 = baseState
  ∧ Ev.errorMsg "Capitals cannot be conquered."
      ∈ (handleAttack baseState "tB" (-1, 0) (0, 0) 5 true).2 := by
  have h := capital_immunity baseState capseqW (0, 0) capF1 "tB" (-1, 0) 5 true
    (by decide) (by decide)
  exact ⟨h.1, h.2.1, h.2.2.1, h.2.2.2.1, h.2.2.2.2 (by decide)⟩

/-- Claim C3 counterexample (to the claim as stated): an attack that targets
a capital but trips an earlier validation is rejected silently, refuting
that every attack on a capital is rejected with an explicit error message:
alice (faction f1, 10 troops on her tile (1, 0)) attacks the f2 capital
(3, 0), which is not adjacent; the state is unchanged but the emitted event
list is empty, with no error message. -/
theorem capital_attack_silent_cex :
    (lookupTile baseState.tiles (3, 0)).map Tile.isCapital = some true
  ∧ isNeighbor (1, 0) (3, 0) = false
  ∧ (findPlayer baseState "tA").isSome = true
  ∧ 5 ≤ getTroops alice (1, 0)
  ∧ (handleAttack baseState "tA" (1, 0) (3, 0) 5 true).1 = baseState
  ∧ (handleAttack baseState "tA" (1, 0) (3, 0) 5 true).2 = [] := by
  decide

/-- Claim C4 (amended): a deploy succeeds (emits the me_update) if and only
if the amount is a positive integer not exceeding the player inventory, the
target tile exists, and the target is in the region reachable from the
faction capital by the per-request breadth-first search restricted to tiles
owned by the player faction; the "not connected to your capital" error is
emitted exactly when the target exists, the amount passes the inventory
checks, and the target is outside that region (an unreachable target whose
amount fails the earlier checks is dropped silently, see the
counterexample); on success the inventory decreases by the amount and the
player troop entry at the target increases by it. -/
theorem deploy_rules (cfg : Config) (s : GameState) (token : String) (p : Player)
    (targetId capId : TileId) (amount : ℕ)
    (hp : findPlayer s token = some p)
    (hcap : alookup s.capitalsByFaction p.factionId = some capId) :
    (Ev.meUpdate token ∈ (handleDeploy cfg s token targetId amount true).2 ↔
       (1 ≤ amount ∧ amount ≤ p.inventory
        ∧ (lookupTile s.tiles targetId).isSome = true
        ∧ (bfsRegion capId s.tiles (fun tile => tile.ownerFaction = p.factionId)
            none).contains targetId = true))
  ∧ ((lookupTile s.tiles targetId).isSome = true → 1 ≤ amount → amount ≤ p.inventory →
       (bfsRegion capId s.tiles (fun tile => tile.ownerFaction = p.factionId)
           none).contains targetId = false →
       handleDeploy cfg s token targetId amount true
         = (s, [Ev.errorMsg "Target not connected to your capital."]))
  ∧ (1 ≤ amount → amount ≤ p.inventory → (lookupTile s.tiles targetId).isSome = true →
       (bfsRegion capId s.tiles (fun tile => tile.ownerFaction = p.factionId)
           none).contains targetId = true →
       ((findPlayer (handleDeploy cfg s token targetId amount true).1 token).map
           Player.inventory = some (p.inventory - amount)
        ∧ (findPlayer (handleDeploy cfg s token targetId amount true).1 token).map
           (fun q => getTroops q targetId) = some (getTroops p targetId + amount))) := by
  unfold handleDeploy
  simp only [hp]
  rw [if_neg (show ¬ (true = false) by simp)]
  cases htile : lookupTile s.tiles targetId with
  | none =>
    refine ⟨?_, ?_, ?_⟩
    · constructor
      · intro hmem
        simp at hmem
      · rintro ⟨-, -, hsome, -⟩
        simp at hsome
    · intro hsome
      simp at hsome
    · intro _ _ hsome
      simp at hsome
  | some t0 =>
    by_cases hguard : amount < 1 ∨ p.inventory < amount
    · rw [if_pos hguard]
      refine ⟨?_, ?_, ?_⟩
      · constructor
        · intro hmem
          simp at hmem
        · rintro ⟨h1, h2, -, -⟩
          rcases hguard with h | h
          · omega
          · omega
      · intro _ h1 h2 _
        exfalso
        rcases hguard with h | h
        · omega
        · omega
      · intro h1 h2 _ _
        exfalso
        rcases hguard with h | h
        · omega
        · omega
    · have h1 : ¬ amount < 1 := fun h => hguard (Or.inl h)
      have h2 : ¬ p.inventory < amount := fun h => hguard (Or.inr h)
      rw [if_neg hguard]
      simp only [hcap]
      by_cases helig : (bfsRegion capId s.tiles
          (fun tile => tile.ownerFaction = p.factionId) none).contains targetId = true
      · rw [if_pos helig]
        refine ⟨?_, ?_, ?_⟩
        · constructor
          · intro _
            refine ⟨by omega, by omega, rfl, helig⟩
          · intro _
            exact List.mem_cons_self _ _
        · intro _ _ _ hfalse
          rw [helig] at hfalse
          cases hfalse
        · intro _ _ _ _
          have hfp := findPlayer_updPlayer_self s token
            (fun q => { q with
                        inventory := q.inventory - amount,
                        troops := setTroops q.troops targetId (getTroops q targetId + amount) })
            (fun q => rfl)
          constructor
          · rw [findPlayer_recalc, hfp, hp, Option.map_some', Option.map_some']
          · rw [findPlayer_recalc, hfp, hp, Option.map_some', Option.map_some']
            unfold getTroops
            rw [alookup_setTroops_self]
            rfl
      · rw [if_neg helig]
        refine ⟨?_, ?_, ?_⟩
        · constructor
          · intro hmem
            simp at hmem
          · rintro ⟨-, -, -, hc⟩
            exact absurd hc helig
        · intro _ _ _ _
          rfl
        · intro _ _ _ hc
          exact absurd hc helig

theorem deploy_rules_witness :
    ((findPlayer (handleDeploy defaultCfg baseState "tA" (1, 0) 10 true).1 "tA").map
        Player.inventory = some (alice.inventory - 10)
      ∧ (findPlayer (handleDeploy defaultCfg baseState "tA" (1, 0) 10 true).1 "tA").map
        (fun q => getTroops q (1, 0)) = some (getTroops alice (1, 0) + 10))
  ∧ handleDeploy defaultCfg baseState "tA" (2, 0) 5 true
      = (baseState, [Ev.errorMsg "Target not connected to your capital."]) :=
  ⟨(deploy_rules defaultCfg baseState "tA" alice (1, 0) (0, 0) 10
      (by decide) (by decide)).2.2 (by decide) (by decide) (by decide) (by decide),
   (deploy_rules defaultCfg baseState "tA" alice (2, 0) (0, 0) 5
      (by decide) (by decide)).2.1 (by decide) (by decide) (by decide) (by decide)⟩

/-- Claim C4 counterexample (to the claim as stated): "when the target is
not reachable it is rejected with a not-connected-to-capital error,
regardless of amount" fails, because the handler checks the amount and the
inventory before connectivity and drops silently: alice has inventory 10,
and her deploy of 50 onto the existing but unreachable enemy tile (2, 0)
emits no message at all. -/
theorem deploy_silent_unreachable_cex :
    (lookupTile baseState.tiles (2, 0)).isSome = true
  ∧ (bfsRegion (0, 0) baseState.tiles
      (fun tile => tile.ownerFaction = "f1") none).contains (2, 0) = false
  ∧ alice.inventory < 50
  ∧ handleDeploy defaultCfg baseState "tA" (2, 0) 50 true = (baseState, []) := by
  decide

theorem attack_not_adjacent_silent (s : GameState) (token : String)
    (fromId targetId : TileId) (amount : ℕ) (limOk : Bool)
    (hadj : isNeighbor fromId targetId = false) :
    (handleAttack s token fromId targetId amount limOk).2 = [] := by
  unfold handleAttack
  split
  · rfl
  · split
    · rfl
    · split
      · split
        · rfl
        · split
          · rfl
          · split
            · rfl
            · split
              · rfl
              · next hng =>
                exfalso
                have htrue := not_not.mp hng
                rw [hadj] at htrue
                exact Bool.false_ne_true htrue
      · rfl

theorem attack_insufficient_silent (s : GameState) (token : String)
    (fromId targetId : TileId) (amount : ℕ) (limOk : Bool) (p : Player)
    (hp : findPlayer s token = some p) (hlt : getTroops p fromId < amount) :
    (handleAttack s token fromId targetId amount limOk).2 = [] := by
  unfold handleAttack
  split
  · rfl
  · next p2 heqp =>
    have hpp : p2 = p := by
      rw [hp] at heqp
      exact (Option.some.inj heqp).symm
    subst hpp
    repeat' first
      | rfl
      | (exact absurd hlt (by assumption))
      | split

theorem deploy_unreachable_error_aux (cfg : Config) (s : GameState) (token : String)
    (p : Player) (targetId capId : TileId) (amount : ℕ)
    (hp : findPlayer s token = some p)
    (hcap : alookup s.capitalsByFaction p.factionId = some capId)
    (hsome : (lookupTile s.tiles targetId).isSome = true)
    (h1 : 1 ≤ amount) (h2 : amount ≤ p.inventory)
    (helig : (bfsRegion capId s.tiles (fun tile => tile.ownerFaction = p.factionId)
        none).contains targetId = false) :
    (handleDeploy cfg s token targetId amount true).2
      = [Ev.errorMsg "Target not connected to your capital."] := by
  unfold handleDeploy
  simp only [hp]
  rw [if_neg (show ¬ (true = false) by simp)]
  cases htile : lookupTile s.tiles targetId with
  | none =>
    rw [htile] at hsome
    simp at hsome
  | some t0 =>
    rw [if_neg (show ¬ (amount < 1 ∨ p.inventory < amount) by omega)]
    simp only [hcap]
    rw [if_neg (show ¬ _ = true from fun hc => by rw [helig] at hc; cases hc)]

theorem deploy_insufficient_silent (cfg : Config) (s : GameState) (token : String)
    (p : Player) (targetId : TileId) (amount : ℕ)
    (hp : findPlayer s token = some p) (hlt : p.inventory < amount) :
    (handleDeploy cfg s token targetId amount true).2 = [] := by
  unfold handleDeploy
  simp only [hp]
  rw [if_neg (show ¬ (true = false) by simp)]
  cases htile : lookupTile s.tiles targetId with
  | none => rfl
  | some t0 =>
    rw [if_pos (Or.inr hlt)]

theorem move_no_error (s : GameState) (token : String) (fromId toId : TileId)
    (amount : ℕ) (limOk : Bool) (em : String) :
    Ev.errorMsg em ∉ (handleMove s token fromId toId amount limOk).2
  ∧ Ev.sessionError em ∉ (handleMove s token fromId toId amount limOk).2 := by
  unfold handleMove
  split
  · exact ⟨by simp, by simp⟩
  · split
    · exact ⟨by simp, by simp⟩
    · split
      · split
        · exact ⟨by simp, by simp⟩
        · split
          · exact ⟨by simp, by simp⟩
          · split
            · exact ⟨by simp, by simp⟩
            · split
              · exact ⟨by simp, by simp⟩
              · dsimp only
                exact ⟨by simp, by simp⟩
      · exact ⟨by simp, by simp⟩

/-- Claim C8 (amended): only two rule violations are surfaced to the
requesting client: an attack whose target is a capital (when the earlier
validations pass) and a deploy whose target is not connected to the capital
(when the amount and inventory checks pass); the other attack and deploy
rule violations (not adjacent, insufficient troops, insufficient inventory)
are silently dropped, and every invalid move request is silently dropped
with no message, as the claim says. -/
theorem error_surfacing (cfg : Config) (s : GameState) (token : String) (p : Player)
    (fromId targetId dTarget mFrom mTo capId : TileId)
    (aAmt dAmt mAmt : ℕ) (mLim : Bool) (emsg : String) :
    (attackPreChecks s token fromId targetId aAmt true = true →
      (lookupTile s.tiles targetId).map Tile.isCapital = some true →
      Ev.errorMsg "Capitals cannot be conquered."
        ∈ (handleAttack s token fromId targetId aAmt true).2)
  ∧ (isNeighbor fromId targetId = false →
      (handleAttack s token fromId targetId aAmt true).2 = [])
  ∧ (findPlayer s token = some p → getTroops p fromId < aAmt →
      (handleAttack s token fromId targetId aAmt true).2 = [])
  ∧ (findPlayer s token = some p →
      alookup s.capitalsByFaction p.factionId = some capId →
      (lookupTile s.tiles dTarget).isSome = true → 1 ≤ dAmt → dAmt ≤ p.inventory →
      (bfsRegion capId s.tiles (fun tile => tile.ownerFaction = p.factionId)
          none).contains dTarget = false →
      (handleDeploy cfg s token dTarget dAmt true).2
        = [Ev.errorMsg "Target not connected to your capital."])
  ∧ (findPlayer s token = some p → p.inventory < dAmt →
      (handleDeploy cfg s token dTarget dAmt true).2 = [])
  ∧ (Ev.errorMsg emsg ∉ (handleMove s token mFrom mTo mAmt mLim).2
      ∧ Ev.sessionError emsg ∉ (handleMove s token mFrom mTo mAmt mLim).2) :=
  ⟨fun hpre hcapm => attack_capital_error s token fromId targetId aAmt true hcapm hpre,
   fun hadj => attack_not_adjacent_silent s token fromId targetId aAmt true hadj,
   fun hp hlt => attack_insufficient_silent s token fromId targetId aAmt true p hp hlt,
   fun hp hcap hsome h1 h2 helig =>
     deploy_unreachable_error_aux cfg s token p dTarget capId dAmt hp hcap hsome h1 h2 helig,
   fun hp hlt => deploy_insufficient_silent cfg s token p dTarget dAmt hp hlt,
   move_no_error s token mFrom mTo mAmt mLim emsg⟩

theorem error_surfacing_witness :
    Ev.errorMsg "Capitals cannot be conquered."
        ∈ (handleAttack baseState "tB" (-1, 0) (0, 0) 5 true).2
  ∧ (handleAttack baseState "tA" (1, 0) (2, 1) 5 true).2 = []
  ∧ (handleAttack baseState "tA" (1, 0) (2, 0) 11 true).2 = []
  ∧ (handleDeploy defaultCfg baseState "tA" (2, 0) 5 true).2
      = [Ev.errorMsg "Target not connected to your capital."]
  ∧ (handleDeploy defaultCfg baseState "tA" (2, 0) 50 true).2 = []
  ∧ (Ev.errorMsg "no message" ∉ (handleMove baseState "tA" (1, 0) (0, 0) 5 true).2
      ∧ Ev.sessionError "no message" ∉ (handleMove baseState "tA" (1, 0) (0, 0) 5 true).2) :=
  ⟨(error_surfacing defaultCfg baseState "tB" bob (-1, 0) (0, 0) (2, 0) (1, 0) (0, 0)
      (3, 0) 5 5 5 true "no message").1 (by decide) (by decide),
   (error_surfacing defaultCfg baseState "tA" alice (1, 0) (2, 1) (2, 0) (1, 0) (0, 0)
      (0, 0) 5 5 5 true "no message").2.1 (by decide),
   (error_surfacing defaultCfg baseState "tA" alice (1, 0) (2, 0) (2, 0) (1, 0) (0, 0)
      (0, 0) 11 5 5 true "no message").2.2.1 (by decide) (by decide),
   (error_surfacing defaultCfg baseState "tA" alice (1, 0) (2, 0) (2, 0) (1, 0) (0, 0)
      (0, 0) 5 5 5 true "no message").2.2.2.1 (by decide) (by decide) (by decide)
      (by decide) (by decide) (by decide),
   (error_surfacing defaultCfg baseState "tA" alice (1, 0) (2, 0) (2, 0) (1, 0) (0, 0)
      (0, 0) 5 50 5 true "no message").2.2.2.2.1 (by decide) (by decide),
   (error_surfacing defaultCfg baseState "tA" alice (1, 0) (2, 0) (2, 0) (1, 0) (0, 0)
      (0, 0) 5 5 5 true "no message").2.2.2.2.2⟩

/-- Claim C8 counterexample (to the claim as stated): a rule-violating
attack is not always surfaced: alice, with a resolved session and a passing
limiter, owning tile (1, 0) with 10 troops, attacks the existing,
non-capital, enemy-owned but NOT adjacent tile (2, 1); the violation of the
adjacency rule is dropped silently, with no error message, and the state is
unchanged. -/
theorem attack_rule_violation_silent_cex :
    (findPlayer baseState "tA").isSome = true
  ∧ (lookupTile baseState.tiles (2, 1)).map Tile.isCapital = some false
  ∧ isNeighbor (1, 0) (2, 1) = false
  ∧ 5 ≤ getTroops alice (1, 0)
  ∧ handleAttack baseState "tA" (1, 0) (2, 1) 5 true = (baseState, []) := by
  decide

end Holowars
